import Mathlib

/-!
Shallow embedding of the kust-chat server (src/main.py): the room registry
(`ConnectionManager`), the Redis-backed per-room history log, the join
handshake and the websocket frame handler, together with proofs of the
specification claims about them.

Conventions of the embedding:
* Python dicts keyed by strings become string-keyed association lists with
  the operations `getA` (read), `setA` (write) and `delA` (`del`); the
  operations are extensionally the dict operations (unique keys).
* Websocket handles become `Nat` identifiers.
* A Python operation that can raise (`KeyError` on a missing dict entry,
  `json.loads` on bad input) returns `Option`, with `none` for the raise.
* The side effects of one handled frame (Redis `RPUSH`, Redis `PUBLISH`,
  socket sends) become an ordered list of `Effect` values; the list order is
  the program order of the awaits in the handler.
-/

/-- Redis channel used for cross-process fan-out (src/main.py line 46). -/
def GLOBAL_CHANNEL : String := "kustify:global:v8"

/-- Key prefix of the per-room history lists (src/main.py line 48). -/
def HISTORY_KEY : String := "kustify:history:v8:"

/-- Display metadata held for one connected user (the `user_info` dict built
from the handshake frame: id, name, pfp). -/
structure UserInfo where
  id : String
  name : String
  pfp : String
deriving DecidableEq

/-- Read of a string-keyed association list (Python `d[k]` / `d.get(k)`). -/
def getA {α : Type} (m : List (String × α)) (k : String) : Option α :=
  (m.find? (fun p => p.1 == k)).map (fun p => p.2)

/-- Write of a string-keyed association list (Python `d[k] = v`). -/
def setA {α : Type} (m : List (String × α)) (k : String) (v : α) : List (String × α) :=
  (k, v) :: m.filter (fun p => p.1 != k)

/-- Deletion from a string-keyed association list (Python `del d[k]`). -/
def delA {α : Type} (m : List (String × α)) (k : String) : List (String × α) :=
  m.filter (fun p => p.1 != k)

/-- The process-local room registry (`ConnectionManager`, src/main.py
lines 53-58): `active_connections` maps a group id to the list of live
sockets, `presence` maps a group id to the per-user metadata dict. -/
structure Manager where
  active_connections : List (String × List Nat)
  presence : List (String × List (String × UserInfo))
deriving DecidableEq

/-- `ConnectionManager.disconnect` (src/main.py lines 75-86): remove the
socket (guarded `list.remove`), delete the user's presence entry (guarded
`del`), and garbage-collect the group's entries when the connection list
became empty.  The unguarded read `self.presence[group_id]` raises
`KeyError` when the group is missing from `presence`; that raise is the
`none` result. -/
def Manager.disconnect (m : Manager) (ws : Nat) (gid uid : String) : Option Manager :=
  match getA m.active_connections gid with
  | none => some m
  | some conns =>
      let conns := conns.erase ws
      let ac := setA m.active_connections gid conns
      match getA m.presence gid with
      | none => none
      | some pres =>
          let pr := setA m.presence gid (delA pres uid)
          if conns.isEmpty then some ⟨delA ac gid, delA pr gid⟩
          else some ⟨ac, pr⟩

/-- The registry mutation performed inline by the websocket endpoint after a
successful handshake (src/main.py lines 199-203): create the group's two
entries when absent, append the socket, record the user's presence entry
under the path parameter `user_id`.  The read of `presence[group_id]`
raises (`none`) when `active_connections` has the group but `presence`
does not. -/
def register (m : Manager) (ws : Nat) (gid uid : String) (info : UserInfo) : Option Manager :=
  let m1 : Manager :=
    if (getA m.active_connections gid).isSome then m
    else ⟨setA m.active_connections gid [], setA m.presence gid []⟩
  match getA m1.active_connections gid, getA m1.presence gid with
  | some conns, some pres =>
      some ⟨setA m1.active_connections gid (conns ++ [ws]),
            setA m1.presence gid (setA pres uid info)⟩
  | _, _ => none

/-- The registry mutation of `ConnectionManager.connect` (src/main.py
lines 60-67); identical to the endpoint's inline registration except that
the presence key is `user_info['id']`. -/
def Manager.connect (m : Manager) (ws : Nat) (gid : String) (info : UserInfo) : Option Manager :=
  let m1 : Manager :=
    if (getA m.active_connections gid).isSome then m
    else ⟨setA m.active_connections gid [], setA m.presence gid []⟩
  match getA m1.active_connections gid, getA m1.presence gid with
  | some conns, some pres =>
      some ⟨setA m1.active_connections gid (conns ++ [ws]),
            setA m1.presence gid (setA pres info.id info)⟩
  | _, _ => none

/-- Registry consistency invariant: every group of `active_connections` has
a `presence` entry and a non-empty connection list, and every group of
`presence` has an `active_connections` entry. -/
def invB (m : Manager) : Bool :=
  m.active_connections.all
      (fun p => (getA m.presence p.1).isSome && decide (p.2 ≠ [])) &&
    m.presence.all (fun p => (getA m.active_connections p.1).isSome)

/-- An optional registry state that exists and satisfies the invariant. -/
def invSome (o : Option Manager) : Bool :=
  match o with
  | none => false
  | some m => invB m

/-- Outcome of one call to `ConnectionManager.broadcast_local`
(src/main.py lines 88-95): the registry state afterwards, the sockets the
loop attempted to send to, and the sockets whose send did not raise.  The
per-socket `try/except Exception: pass` is modelled by the failure
predicate `fails`: a failing socket's send raises, the exception is
swallowed, and the loop continues with the remaining sockets. -/
structure BroadcastResult where
  state : Manager
  attempted : List Nat
  delivered : List Nat
deriving DecidableEq

/-- `ConnectionManager.broadcast_local` (src/main.py lines 88-95). -/
def broadcast_local (m : Manager) (fails : Nat → Bool) (gid : String) : BroadcastResult :=
  match getA m.active_connections gid with
  | none => ⟨m, [], []⟩
  | some conns => ⟨m, conns, conns.filter (fun ws => !(fails ws))⟩

/-- The fields a client may put in its first (handshake) frame
(src/main.py lines 183-188). -/
structure InitData where
  name : Option String := none
  pfp : Option String := none
deriving DecidableEq

/-- The `user_info` dict built from the handshake frame, with the code's
defaults `"Anon"` and `""` (src/main.py lines 184-188). -/
def mkUserInfo (uid : String) (d : InitData) : UserInfo :=
  ⟨uid, d.name.getD "Anon", d.pfp.getD ""⟩

/-- The join handshake (src/main.py lines 179-203): receive the first
frame (`none` = `receive_json` raised, so the socket is closed and nothing
is registered), build `user_info`, and register with the manager. -/
def handshake (m : Manager) (ws : Nat) (gid uid : String) (init : Option InitData) :
    Option (Manager × UserInfo) :=
  match init with
  | none => none
  | some d =>
      let info := mkUserInfo uid d
      match register m ws gid uid info with
      | none => none
      | some m2 => some (m2, info)

/-- `true` when a completed handshake left `uid` registered in `gid`'s
presence table. -/
def registeredAfter (o : Option (Manager × UserInfo)) (gid uid : String) : Bool :=
  match o with
  | some (m2, _) => ((getA m2.presence gid).getD []).any (fun p => p.1 == uid)
  | none => false

/-- An inbound client frame after JSON decoding: the `type` discriminator
and the fields the handler reads.  `sender_id`, `user_name` and `user_pfp`
are client-supplied identity fields that a spoofing client may include. -/
structure Frame where
  type : String
  text : Option String := none
  image_url : Option String := none
  style : Option String := none
  msg_id : Option String := none
  emoji : Option String := none
  target_id : Option String := none
  vol : Option Nat := none
  sender_id : Option String := none
  user_name : Option String := none
  user_pfp : Option String := none
deriving DecidableEq

/-- Erase the client-supplied identity fields of a frame; two frames with
the same `stripIdentity` image differ only in those fields. -/
def stripIdentity (f : Frame) : Frame :=
  { f with sender_id := none, user_name := none, user_pfp := none }

/-- Per-connection context of the handler: path parameters, the handshake
`user_info`, and the clock value used for the message id and timestamp. -/
structure Ctx where
  group_id : String
  user_id : String
  info : UserInfo
  now : Nat
deriving DecidableEq

/-- The outbound `message` envelope built by the handler's `message`
branch (src/main.py lines 236-250). -/
structure MsgOut where
  id : String
  group_id : String
  user_id : String
  user_name : String
  user_pfp : String
  text : Option String
  image_url : Option String
  style : String
  timestamp : Nat
deriving DecidableEq

/-- Build the outbound `message` envelope: id and timestamp from the
server clock, identity fields from the path parameter and the handshake
`user_info`, content fields from the client frame. -/
def buildMsgOut (ctx : Ctx) (f : Frame) : MsgOut :=
  { id := ctx.user_id ++ "-" ++ toString ctx.now
    group_id := ctx.group_id
    user_id := ctx.user_id
    user_name := ctx.info.name
    user_pfp := ctx.info.pfp
    text := f.text
    image_url := f.image_url
    style := f.style.getD "normal"
    timestamp := ctx.now }

/-- The annotation the voice branch applies before broadcasting
(src/main.py lines 272-278): overwrite `sender_id` with the authenticated
user id, and for `vc_join` also overwrite `user_name` and `user_pfp` from
the handshake data.  All other client fields pass through. -/
def vcAnnotate (ctx : Ctx) (f : Frame) : Frame :=
  let f1 := { f with sender_id := some ctx.user_id }
  if f1.type == "vc_join" then
    { f1 with user_name := some ctx.info.name, user_pfp := some ctx.info.pfp }
  else f1

/-- The frame types of the voice branch (src/main.py line 272). -/
def vcTypes : List String := ["vc_join", "vc_leave", "vc_signal", "vc_talking", "vc_update"]

/-- One external side effect of the handler, in program order. -/
inductive Effect where
  | rpush (key : String) (msg : MsgOut)
  | publish (channel : String) (msg : MsgOut)
  | heartbeatAck
  | broadcastTyping (gid uid name : String)
  | broadcastReaction (gid : String) (msgId : Option String) (uid : String)
      (emoji : Option String)
  | broadcastVc (gid : String) (f : Frame)
deriving DecidableEq

/-- The `elif` chain of the read loop (src/main.py lines 221-292), as the
ordered list of side effects of one decoded frame.  A frame type outside
the chain (`edit`, `delete`, ...) matches no branch and has no effect. -/
def handleFrame (ctx : Ctx) (f : Frame) : List Effect :=
  if f.type == "heartbeat" then [.heartbeatAck]
  else if f.type == "typing" then
    [.broadcastTyping ctx.group_id ctx.user_id ctx.info.name]
  else if f.type == "message" then
    let out := buildMsgOut ctx f
    [.rpush (HISTORY_KEY ++ ctx.group_id) out, .publish GLOBAL_CHANNEL out]
  else if f.type == "react" then
    [.broadcastReaction ctx.group_id f.msg_id ctx.user_id f.emoji]
  else if vcTypes.contains f.type then
    [.broadcastVc ctx.group_id (vcAnnotate ctx f)]
  else []

/-- What one iteration of the read loop received: a text frame together
with its JSON decode result (`none` = `json.loads` raised), or a
`WebSocketDisconnect` raise. -/
inductive Inbound where
  | frame (parsed : Option Frame)
  | closed
deriving DecidableEq

/-- How one iteration of the read loop ends. -/
inductive StepResult where
  | ok (effects : List Effect)
  | cleanup
  | fatal
deriving DecidableEq

/-- One iteration of the read loop (src/main.py lines 217-296).  The
`try` around the loop catches only `WebSocketDisconnect` (the `cleanup`
path); a `json.loads` failure propagates out of the handler task
uncaught (`fatal`). -/
def loopStep (ctx : Ctx) (inb : Inbound) : StepResult :=
  match inb with
  | .closed => .cleanup
  | .frame none => .fatal
  | .frame (some f) => .ok (handleFrame ctx f)

/-- The behaviour claim C3 asserts for a malformed frame: it is dropped
and the loop continues. -/
def dropsAndContinues (r : StepResult) : Prop := r = .ok []

/-- Recognizer for the bus publish effect. -/
def isPublish (e : Effect) : Bool :=
  match e with
  | .publish _ _ => true
  | _ => false

/-- Recognizer for the history append effect. -/
def isRpush (e : Effect) : Bool :=
  match e with
  | .rpush _ _ => true
  | _ => false

/-- `true` when, in an effect trace, a bus publish occurs strictly before
a history append. -/
def publishedBeforeAppend (effs : List Effect) : Bool :=
  match effs.findIdx? isPublish, effs.findIdx? isRpush with
  | some p, some a => decide (p < a)
  | _, _ => false

/-- The identity fields of an outbound envelope, per the claim's reading:
`user_id`, `user_name`, `user_pfp` for `message` envelopes, `sender_id`
for voice envelopes; `none` for effects the claim does not cover. -/
def effectIdentity (e : Effect) : Option (List String) :=
  match e with
  | .rpush _ m => some [m.user_id, m.user_name, m.user_pfp]
  | .publish _ m => some [m.user_id, m.user_name, m.user_pfp]
  | .broadcastVc _ fr => some [fr.sender_id.getD ""]
  | _ => none

/-- Every identity-carrying effect of a trace carries exactly the
connection's authenticated identity. -/
def identitiesOk (ctx : Ctx) (effs : List Effect) : Bool :=
  effs.all (fun e =>
    match effectIdentity e with
    | none => true
    | some ids =>
        ids == [ctx.user_id, ctx.info.name, ctx.info.pfp] || ids == [ctx.user_id])

/-- The Redis key space restricted to list values: key to stored list. -/
abbrev Store := List (String × List MsgOut)

/-- Apply one effect to the Redis store; only `rpush` mutates it. -/
def applyEffect (st : Store) (e : Effect) : Store :=
  match e with
  | .rpush k v => setA st k (((getA st k).getD []) ++ [v])
  | _ => st

/-- Apply an effect trace to the Redis store in order. -/
def applyEffects (st : Store) (effs : List Effect) : Store :=
  effs.foldl applyEffect st

/-- Append a sequence of message envelopes to a room's history in order
(the endpoint's `rpush` per message, src/main.py line 252). -/
def appendMsgs (st : Store) (gid : String) (msgs : List MsgOut) : Store :=
  msgs.foldl (fun s v => applyEffect s (.rpush (HISTORY_KEY ++ gid) v)) st

/-- Redis `LRANGE key start stop`: negative indices count from the end,
the start clamps at 0, the stop clamps at the last element, and an empty
range yields the empty list. -/
def lrange {α : Type} (l : List α) (start stop : Int) : List α :=
  let n : Int := l.length
  let s : Int := if start < 0 then max (n + start) 0 else start
  let e : Int := min (if stop < 0 then n + stop else stop) (n - 1)
  if s > e then [] else (l.drop s.toNat).take (e - s + 1).toNat

/-- The history read endpoint (src/main.py lines 143-147):
`lrange(key, -limit, -1)` on the room's list (missing key = empty list). -/
def get_history (st : Store) (group_id : String) (limit : Int) : List MsgOut :=
  lrange ((getA st (HISTORY_KEY ++ group_id)).getD []) (-limit) (-1)

/-! Concrete inputs used by the closed witness and counterexample theorems. -/

/-- A sample authenticated connection context. -/
def ctx0 : Ctx := ⟨"Lobby", "u1", ⟨"u1", "alice", "pfp1"⟩, 1000⟩

/-- A sample inbound chat message frame. -/
def msgFrame0 : Frame := { type := "message", text := some "hi" }

/-- A sample inbound edit frame. -/
def editFrame0 : Frame := { type := "edit", msg_id := some "m1", text := some "new" }

/-- A voice signalling frame carrying one spoofed identity. -/
def vcFrameSpoofA : Frame :=
  { type := "vc_signal", target_id := some "u2", sender_id := some "evil1",
    user_name := some "mallory" }

/-- The same voice frame carrying a different spoofed identity. -/
def vcFrameSpoofB : Frame :=
  { type := "vc_signal", target_id := some "u2", sender_id := some "evil2",
    user_name := some "trudy" }

/-- A sample user. -/
def infoA : UserInfo := ⟨"u1", "alice", "pfp1"⟩

/-- Another sample user. -/
def infoB : UserInfo := ⟨"u2", "bob", "pfp2"⟩

/-- A sample stored message. -/
def mOut1 : MsgOut := ⟨"u1-1", "Lobby", "u1", "alice", "pfp1", some "one", none, "normal", 1⟩

/-- A second sample stored message. -/
def mOut2 : MsgOut := ⟨"u1-2", "Lobby", "u1", "alice", "pfp1", some "two", none, "normal", 2⟩

/-- A third sample stored message. -/
def mOut3 : MsgOut := ⟨"u2-3", "Lobby", "u2", "bob", "pfp2", some "three", none, "shout", 3⟩

/-- The three sample messages in append order. -/
def msgs3 : List MsgOut := [mOut1, mOut2, mOut3]

/-- A store holding one room's history. -/
def st0 : Store := [(HISTORY_KEY ++ "Lobby", [mOut1])]

/-- A registry with three sockets in one room. -/
def m7 : Manager := ⟨[("r", [1, 2, 3])], [("r", [("u1", infoA)])]⟩

/-- The failure pattern in which only socket 2's send raises. -/
def fails7 : Nat → Bool := fun ws => ws == 2

/-- A one-socket registry. -/
def mW : Manager := ⟨[("r", [5])], [("r", [("u", infoA)])]⟩

/-- The registry state after `mW`'s only socket disconnects. -/
def mW1 : Manager := ⟨[], []⟩

/-- A registry satisfying the consistency invariant. -/
def m9 : Manager := ⟨[("Lobby", [1])], [("Lobby", [("u1", infoA)])]⟩

/-- A first handshake registering the name `alice`. -/
def hsA : Option (Manager × UserInfo) :=
  handshake ⟨[], []⟩ 1 "Lobby" "u1" (some ⟨some "alice", some "p1"⟩)

/-- A second handshake on the same process re-using the name `alice`. -/
def hsB : Option (Manager × UserInfo) :=
  match hsA with
  | some (m1, _) => handshake m1 2 "Lobby" "u2" (some ⟨some "alice", some "p2"⟩)
  | none => none

/-- The display names registered in a room after a handshake. -/
def namesAfter (o : Option (Manager × UserInfo)) (gid : String) : List String :=
  match o with
  | some (m2, _) => ((getA m2.presence gid).getD []).map (fun p => p.2.name)
  | none => []

/-! Association-list lemmas. -/

theorem find?_filter_ne {α : Type} (m : List (String × α)) (k kq : String) (h : kq ≠ k) :
    (m.filter (fun p => p.1 != k)).find? (fun p => p.1 == kq)
      = m.find? (fun p => p.1 == kq) := by
  induction m with
  | nil => rfl
  | cons a t ih =>
    by_cases hk : a.1 = k
    · have hq : (k == kq) = false := by
        simp only [beq_eq_false_iff_ne, ne_eq]
        intro hkk
        exact h hkk.symm
      simp [List.filter_cons, hk, hq, List.find?_cons, ih]
    · by_cases hq : a.1 = kq
      · simp [List.filter_cons, hk, hq, h, List.find?_cons]
      · simp [List.filter_cons, hk, hq, List.find?_cons, ih]

theorem getA_setA_self {α : Type} (m : List (String × α)) (k : String) (v : α) :
    getA (setA m k v) k = some v := by
  simp [getA, setA]

theorem getA_setA_ne {α : Type} (m : List (String × α)) (k kq : String) (v : α)
    (h : kq ≠ k) : getA (setA m k v) kq = getA m kq := by
  have hk : (k == kq) = false := by
    simp
    exact fun hkk => h hkk.symm
  simp [getA, setA, hk, find?_filter_ne m k kq h]

theorem getA_delA_self {α : Type} (m : List (String × α)) (k : String) :
    getA (delA m k) k = none := by
  simp only [getA, delA, Option.map_eq_none']
  rw [List.find?_eq_none]
  intro p hp
  have := List.of_mem_filter hp
  simpa using this

theorem getA_delA_ne {α : Type} (m : List (String × α)) (k kq : String)
    (h : kq ≠ k) : getA (delA m k) kq = getA m kq := by
  simp [getA, delA, find?_filter_ne m k kq h]

theorem setA_setA {α : Type} (m : List (String × α)) (k : String) (v w : α) :
    setA (setA m k v) k w = setA m k w := by
  simp [setA, List.filter_cons]

theorem delA_setA {α : Type} (m : List (String × α)) (k : String) (v : α) :
    delA (setA m k v) k = delA m k := by
  simp [setA, delA, List.filter_cons]

theorem delA_delA {α : Type} (m : List (String × α)) (k : String) :
    delA (delA m k) k = delA m k := by
  simp [delA, List.filter_filter]

theorem mem_setA {α : Type} (m : List (String × α)) (k : String) (v : α)
    (p : String × α) : p ∈ setA m k v ↔ p = (k, v) ∨ (p ∈ m ∧ p.1 ≠ k) := by
  simp [setA, List.mem_filter]

theorem mem_delA {α : Type} (m : List (String × α)) (k : String) (p : String × α) :
    p ∈ delA m k ↔ p ∈ m ∧ p.1 ≠ k := by
  simp [delA, List.mem_filter]

theorem getA_isSome_exists {α : Type} (m : List (String × α)) (k : String)
    (h : (getA m k).isSome) : ∃ v, (k, v) ∈ m := by
  simp only [getA, Option.isSome_map'] at h
  rw [Option.isSome_iff_exists] at h
  obtain ⟨p, hp⟩ := h
  have hmem := List.mem_of_find?_eq_some hp
  have hkey := List.find?_some hp
  simp at hkey
  refine ⟨p.2, ?_⟩
  rw [← hkey]
  exact hmem

/-! Redis `LRANGE` lemmas. -/

theorem lrange_zero {α : Type} (l : List α) : lrange l 0 (-1) = l := by
  simp only [lrange]
  have h0 : ¬ ((0:Int) < 0) := by omega
  rw [if_neg h0]
  have hstop : ((-1:Int) < 0) := by omega
  rw [if_pos hstop]
  have hmin : min ((l.length:Int) + -1) ((l.length:Int) - 1) = (l.length:Int) - 1 := by
    omega
  rw [hmin]
  rcases Nat.eq_zero_or_pos l.length with hl | hl
  · have hgt : (0:Int) > (l.length:Int) - 1 := by omega
    rw [if_pos hgt, List.length_eq_zero.mp hl]
  · have hgt : ¬ ((0:Int) > (l.length:Int) - 1) := by omega
    rw [if_neg hgt]
    have htk : ((l.length:Int) - 1 - 0 + 1).toNat = l.length := by omega
    rw [htk]
    simp [List.take_of_length_le]

theorem lrange_neg_eq_drop {α : Type} (l : List α) (L : Nat) (h1 : 1 ≤ L)
    (h2 : L ≤ l.length) : lrange l (-(L:Int)) (-1) = l.drop (l.length - L) := by
  simp only [lrange]
  have hs : (-(L:Int) < 0) := by omega
  rw [if_pos hs]
  have hstop : ((-1:Int) < 0) := by omega
  rw [if_pos hstop]
  have hmax : max ((l.length:Int) + -(L:Int)) 0 = (l.length:Int) - L := by omega
  have hmin : min ((l.length:Int) + -1) ((l.length:Int) - 1) = (l.length:Int) - 1 := by
    omega
  rw [hmax, hmin]
  have hgt : ¬ ((l.length:Int) - L > (l.length:Int) - 1) := by omega
  rw [if_neg hgt]
  have htn : ((l.length:Int) - L).toNat = l.length - L := by omega
  have htk : ((l.length:Int) - 1 - ((l.length:Int) - L) + 1).toNat = L := by omega
  rw [htn, htk]
  apply List.take_of_length_le
  rw [List.length_drop]
  omega

theorem getD_appendMsgs (st : Store) (gid : String) (msgs : List MsgOut) :
    (getA (appendMsgs st gid msgs) (HISTORY_KEY ++ gid)).getD []
      = (getA st (HISTORY_KEY ++ gid)).getD [] ++ msgs := by
  induction msgs generalizing st with
  | nil => simp [appendMsgs]
  | cons v vs ih =>
    have hstep : appendMsgs st gid (v :: vs)
        = appendMsgs
            (setA st (HISTORY_KEY ++ gid)
              (((getA st (HISTORY_KEY ++ gid)).getD []) ++ [v])) gid vs := by
      simp [appendMsgs, applyEffect]
    rw [hstep, ih, getA_setA_self]
    simp

/-! Registry invariant lemmas. -/

theorem invB_iff (m : Manager) : invB m = true ↔
    (∀ p ∈ m.active_connections, (getA m.presence p.1).isSome = true ∧ p.2 ≠ []) ∧
    (∀ p ∈ m.presence, (getA m.active_connections p.1).isSome = true) := by
  simp [invB, List.all_eq_true, Bool.and_eq_true]

theorem inv_presence_isSome (m : Manager) (h : invB m = true) (gid : String)
    (hg : (getA m.active_connections gid).isSome = true) :
    (getA m.presence gid).isSome = true := by
  obtain ⟨v, hv⟩ := getA_isSome_exists _ _ hg
  exact (((invB_iff m).1 h).1 (gid, v) hv).1

theorem invB_setA_both (m : Manager) (h : invB m = true) (gid : String)
    (conns : List Nat) (pres : List (String × UserInfo)) (hc : conns ≠ []) :
    invB ⟨setA m.active_connections gid conns, setA m.presence gid pres⟩ = true := by
  rw [invB_iff] at h ⊢
  obtain ⟨h1, h2⟩ := h
  constructor
  · intro p hp
    rcases (mem_setA _ _ _ _).1 hp with rfl | ⟨hpm, hpk⟩
    · simp [getA_setA_self, hc]
    · obtain ⟨ha, hb⟩ := h1 p hpm
      rw [getA_setA_ne _ _ _ _ hpk]
      exact ⟨ha, hb⟩
  · intro p hp
    rcases (mem_setA _ _ _ _).1 hp with rfl | ⟨hpm, hpk⟩
    · simp [getA_setA_self]
    · rw [getA_setA_ne _ _ _ _ hpk]
      exact h2 p hpm

theorem invB_delA_both (m : Manager) (h : invB m = true) (gid : String) :
    invB ⟨delA m.active_connections gid, delA m.presence gid⟩ = true := by
  rw [invB_iff] at h ⊢
  obtain ⟨h1, h2⟩ := h
  constructor
  · intro p hp
    obtain ⟨hpm, hpk⟩ := (mem_delA _ _ _).1 hp
    obtain ⟨ha, hb⟩ := h1 p hpm
    rw [getA_delA_ne _ _ _ hpk]
    exact ⟨ha, hb⟩
  · intro p hp
    obtain ⟨hpm, hpk⟩ := (mem_delA _ _ _).1 hp
    rw [getA_delA_ne _ _ _ hpk]
    exact h2 p hpm

theorem invSome_disconnect (m : Manager) (h : invB m = true) (ws : Nat)
    (gid uid : String) : invSome (m.disconnect ws gid uid) = true := by
  rcases hac : getA m.active_connections gid with _ | conns
  · simp [Manager.disconnect, hac, invSome, h]
  · have hp : (getA m.presence gid).isSome = true :=
      inv_presence_isSome m h gid (by rw [hac]; rfl)
    rcases hpr : getA m.presence gid with _ | pres
    · rw [hpr] at hp
      simp at hp
    by_cases he : (conns.erase ws).isEmpty
    · simp only [Manager.disconnect, hac, hpr, he, if_pos, invSome]
      rw [delA_setA, delA_setA]
      exact invB_delA_both m h gid
    · simp only [Manager.disconnect, hac, hpr, he, Bool.false_eq_true, if_false, invSome]
      exact invB_setA_both m h gid (conns.erase ws) (delA pres uid)
        (by simpa [List.isEmpty_iff] using he)

theorem register_eq (m : Manager) (gid : String) (conns : List Nat)
    (pres : List (String × UserInfo))
    (hac : getA m.active_connections gid = some conns)
    (hpr : getA m.presence gid = some pres) (ws : Nat) (uid : String)
    (info : UserInfo) :
    register m ws gid uid info
      = some ⟨setA m.active_connections gid (conns ++ [ws]),
              setA m.presence gid (setA pres uid info)⟩ := by
  simp only [register, hac, hpr, Option.isSome_some, if_true]

theorem register_eq_new (m : Manager) (gid : String)
    (hac : getA m.active_connections gid = none) (ws : Nat) (uid : String)
    (info : UserInfo) :
    register m ws gid uid info
      = some ⟨setA m.active_connections gid [ws],
              setA m.presence gid [(uid, info)]⟩ := by
  have h1 : (getA m.active_connections gid).isSome = false := by
    rw [hac]
    rfl
  simp only [register, h1, Bool.false_eq_true, if_false, getA_setA_self]
  rw [setA_setA, setA_setA]
  rfl

theorem invSome_register (m : Manager) (h : invB m = true) (ws : Nat)
    (gid uid : String) (info : UserInfo) :
    invSome (register m ws gid uid info) = true := by
  rcases hac : getA m.active_connections gid with _ | conns
  · rw [register_eq_new m gid hac ws uid info]
    show invB _ = true
    exact invB_setA_both m h gid [ws] [(uid, info)] (by simp)
  · have hp : (getA m.presence gid).isSome = true :=
      inv_presence_isSome m h gid (by rw [hac]; rfl)
    rcases hpr : getA m.presence gid with _ | pres
    · rw [hpr] at hp
      simp at hp
    rw [register_eq m gid conns pres hac hpr ws uid info]
    show invB _ = true
    exact invB_setA_both m h gid (conns ++ [ws]) (setA pres uid info) (by simp)

theorem register_registered (m : Manager) (h : invB m = true) (ws : Nat)
    (gid uid : String) (info : UserInfo) :
    ∃ m2, register m ws gid uid info = some m2 ∧
      ((getA m2.presence gid).getD []).any (fun p => p.1 == uid) = true := by
  rcases hac : getA m.active_connections gid with _ | conns
  · exact ⟨_, register_eq_new m gid hac ws uid info, by simp [getA_setA_self]⟩
  · have hp : (getA m.presence gid).isSome = true :=
      inv_presence_isSome m h gid (by rw [hac]; rfl)
    rcases hpr : getA m.presence gid with _ | pres
    · rw [hpr] at hp
      simp at hp
    refine ⟨_, register_eq m gid conns pres hac hpr ws uid info, ?_⟩
    show ((getA (setA m.presence gid (setA pres uid info)) gid).getD []).any
        (fun p => p.1 == uid) = true
    rw [getA_setA_self]
    simp [setA]

/-! Claim theorems. -/

/-- C10: a history read with limit 0 returns the room's entire history,
because the range start index `-0` equals 0 and selects the whole list. -/
theorem history_limit_zero_returns_all (st : Store) (gid : String) :
    get_history st gid 0 = (getA st (HISTORY_KEY ++ gid)).getD [] := by
  show lrange _ (-(0:Int)) (-1) = _
  rw [neg_zero]
  exact lrange_zero _

/-- Read of the last `msgs.length` entries of a room to whose history
`msgs` were just appended, after any prior history: the appended messages
come back in append order. -/
theorem get_history_append_core (st : Store) (gid : String) (msgs : List MsgOut)
    (h : 1 ≤ msgs.length) :
    get_history (appendMsgs st gid msgs) gid (msgs.length : Int) = msgs := by
  have hh : (getA (appendMsgs st gid msgs) (HISTORY_KEY ++ gid)).getD []
      = (getA st (HISTORY_KEY ++ gid)).getD [] ++ msgs := getD_appendMsgs st gid msgs
  show lrange _ (-(msgs.length : Int)) (-1) = msgs
  rw [hh, lrange_neg_eq_drop _ msgs.length h (by simp)]
  have hidx : ((getA st (HISTORY_KEY ++ gid)).getD [] ++ msgs).length - msgs.length
      = ((getA st (HISTORY_KEY ++ gid)).getD []).length := by
    simp
  rw [hidx, List.drop_left]

/-- C4: for every room (with any prior history) and every sequence of N
messages appended to it in order, a history read with limit N returns
exactly those N messages in append order whenever N ≥ 1, and for every N
(including 0) when the room's history was empty; for 1 ≤ L < N the read
with limit L returns the last L of them, in append order. -/
theorem history_read_in_append_order (st : Store) (gid : String)
    (msgs : List MsgOut) (L : Nat) :
    (1 ≤ msgs.length →
      get_history (appendMsgs st gid msgs) gid (msgs.length : Int) = msgs) ∧
    ((getA st (HISTORY_KEY ++ gid)).getD [] = [] →
      get_history (appendMsgs st gid msgs) gid (msgs.length : Int) = msgs) ∧
    (1 ≤ L → L < msgs.length →
      get_history (appendMsgs st gid msgs) gid (L : Int)
        = msgs.drop (msgs.length - L)) := by
  refine ⟨get_history_append_core st gid msgs, ?_, ?_⟩
  · intro h0
    rcases hm : msgs with _ | ⟨v, vs⟩
    · have hh : (getA (appendMsgs st gid []) (HISTORY_KEY ++ gid)).getD [] = [] := by
        rw [getD_appendMsgs, h0, List.nil_append]
      show lrange _ (-((List.length ([] : List MsgOut)) : Int)) (-1) = []
      rw [hh]
      simpa using lrange_zero ([] : List MsgOut)
    · exact get_history_append_core st gid (v :: vs) (by simp)
  · intro h1 h2
    have hh : (getA (appendMsgs st gid msgs) (HISTORY_KEY ++ gid)).getD []
        = (getA st (HISTORY_KEY ++ gid)).getD [] ++ msgs := getD_appendMsgs st gid msgs
    show lrange _ (-(L : Int)) (-1) = msgs.drop (msgs.length - L)
    rw [hh, lrange_neg_eq_drop _ L h1 (by simp; omega)]
    have hidx : ((getA st (HISTORY_KEY ++ gid)).getD [] ++ msgs).length - L
        = ((getA st (HISTORY_KEY ++ gid)).getD []).length + (msgs.length - L) := by
      simp
      omega
    rw [hidx, ← List.drop_drop, List.drop_left]

/-- Witness for C4: three concrete messages appended after a non-empty
prior history, read with limit 3 and limit 2, and appended to a fresh
room, read with limit 3. -/
theorem history_read_in_append_order_witness :
    (1 ≤ msgs3.length ∧
      get_history (appendMsgs st0 "Lobby" msgs3) "Lobby" (msgs3.length : Int)
        = msgs3) ∧
    ((getA ([] : Store) (HISTORY_KEY ++ "Lobby")).getD [] = [] ∧
      get_history (appendMsgs [] "Lobby" msgs3) "Lobby" (msgs3.length : Int)
        = msgs3) ∧
    (1 ≤ 2 ∧ 2 < msgs3.length ∧
      get_history (appendMsgs st0 "Lobby" msgs3) "Lobby" ((2 : Nat) : Int)
        = msgs3.drop (msgs3.length - 2)) :=
  ⟨⟨by decide, (history_read_in_append_order st0 "Lobby" msgs3 2).1 (by decide)⟩,
   ⟨rfl, (history_read_in_append_order [] "Lobby" msgs3 2).2.1 rfl⟩,
   ⟨by omega, by decide,
    (history_read_in_append_order st0 "Lobby" msgs3 2).2.2 (by omega) (by decide)⟩⟩

/-- C5: an `edit` or `delete` frame matches no branch of the handler's
`elif` chain, so the room's history (the whole store) is unchanged by it. -/
theorem edit_delete_history_unchanged (st : Store) (ctx : Ctx) (f : Frame)
    (h : f.type = "edit" ∨ f.type = "delete") :
    applyEffects st (handleFrame ctx f) = st := by
  rcases f with ⟨t, a1, a2, a3, a4, a5, a6, a7, a8, a9, a10⟩
  rcases h with h | h
  · change t = "edit" at h
    subst h
    rfl
  · change t = "delete" at h
    subst h
    rfl

/-- Witness for C5 at a concrete edit frame and store. -/
theorem edit_delete_history_unchanged_witness :
    (editFrame0.type = "edit" ∨ editFrame0.type = "delete") ∧
    applyEffects st0 (handleFrame ctx0 editFrame0) = st0 :=
  ⟨Or.inl rfl, edit_delete_history_unchanged st0 ctx0 editFrame0 (Or.inl rfl)⟩

/-- C1 counterexample: at a concrete inbound message frame the handler's
effect trace contains both the history append and the bus publish, and
the publish does not precede the append. -/
theorem message_publish_not_before_append :
    publishedBeforeAppend (handleFrame ctx0 msgFrame0) = false ∧
    (handleFrame ctx0 msgFrame0).any isRpush = true ∧
    (handleFrame ctx0 msgFrame0).any isPublish = true := by
  decide

/-- C1 amended: for every inbound message frame the handler appends the
envelope to the room's history first and publishes the same envelope to
the bus second, so a failure of the append step prevents the publish, not
the other way around. -/
theorem message_append_precedes_publish (ctx : Ctx) (f : Frame)
    (h : f.type = "message") :
    handleFrame ctx f
      = [Effect.rpush (HISTORY_KEY ++ ctx.group_id) (buildMsgOut ctx f),
         Effect.publish GLOBAL_CHANNEL (buildMsgOut ctx f)] := by
  rcases f with ⟨t, a1, a2, a3, a4, a5, a6, a7, a8, a9, a10⟩
  change t = "message" at h
  subst h
  rfl

/-- Witness for the amended C1 at a concrete message frame. -/
theorem message_append_precedes_publish_witness :
    msgFrame0.type = "message" ∧
    handleFrame ctx0 msgFrame0
      = [Effect.rpush (HISTORY_KEY ++ ctx0.group_id) (buildMsgOut ctx0 msgFrame0),
         Effect.publish GLOBAL_CHANNEL (buildMsgOut ctx0 msgFrame0)] :=
  ⟨rfl, message_append_precedes_publish ctx0 msgFrame0 rfl⟩

/-- C3 counterexample: at a concrete connection, a frame whose JSON decode
fails does not take the drop-and-continue path. -/
theorem malformed_frame_not_dropped :
    ¬ dropsAndContinues (loopStep ctx0 (Inbound.frame none)) := by
  unfold dropsAndContinues
  decide

/-- C3 amended: a frame that fails JSON decoding raises out of the read
loop uncaught and terminates the handler task; only a
`WebSocketDisconnect` is caught and routed to the cleanup path. -/
theorem malformed_frame_fatal (ctx : Ctx) :
    loopStep ctx (Inbound.frame none) = StepResult.fatal ∧
    loopStep ctx Inbound.closed = StepResult.cleanup :=
  ⟨rfl, rfl⟩

/-- C7 counterexample: with three registered sockets and socket 2's send
raising, every socket is attempted, but the registry state afterwards is
identical to the state before: the failed socket stays registered and
nothing marks it for removal. -/
theorem broadcast_failed_socket_not_marked :
    (broadcast_local m7 fails7 "r").attempted = [1, 2, 3] ∧
    (broadcast_local m7 fails7 "r").delivered = [1, 3] ∧
    fails7 2 = true ∧
    (broadcast_local m7 fails7 "r").state = m7 ∧
    (getA (broadcast_local m7 fails7 "r").state.active_connections "r").getD []
      = [1, 2, 3] := by
  decide

/-- C7 amended: `broadcast_local` attempts delivery to every registered
socket of the room, isolating per-socket send failures, but it leaves the
registry state unchanged: a failed socket is swallowed silently and is
not marked for removal. -/
theorem broadcast_attempts_all_state_unchanged (m : Manager) (fails : Nat → Bool)
    (gid : String) :
    (broadcast_local m fails gid).attempted
      = (getA m.active_connections gid).getD [] ∧
    (broadcast_local m fails gid).state = m ∧
    (broadcast_local m fails gid).delivered
      = ((getA m.active_connections gid).getD []).filter (fun ws => !(fails ws)) := by
  rcases hac : getA m.active_connections gid with _ | conns <;>
    simp [broadcast_local, hac]

/-- C2 counterexample: two handshakes with the name `alice` on one process
both complete and both users end up registered — nothing rejects the
second, and the room's presence table holds the name twice. -/
theorem duplicate_name_both_registered :
    registeredAfter hsB "Lobby" "u1" = true ∧
    registeredAfter hsB "Lobby" "u2" = true ∧
    namesAfter hsB "Lobby" = ["alice", "alice"] := by
  decide

/-- C2 amended: the handshake performs no name-uniqueness check: every
handshake whose first frame is received is registered regardless of name
collisions (given the registry invariant); the only close-without-register
path is a failed initial receive. -/
theorem handshake_always_registers (m : Manager) (h : invB m = true) (ws : Nat)
    (gid uid : String) (d : InitData) :
    registeredAfter (handshake m ws gid uid (some d)) gid uid = true ∧
    handshake m ws gid uid none = none := by
  constructor
  · obtain ⟨m2, hm2, hany⟩ := register_registered m h ws gid uid (mkUserInfo uid d)
    simp only [handshake, hm2, registeredAfter]
    exact hany
  · rfl

/-- Witness for the amended C2: a handshake re-using an already-registered
name still registers. -/
theorem handshake_always_registers_witness :
    invB m9 = true ∧
    (registeredAfter (handshake m9 2 "Lobby" "u2" (some ⟨some "alice", none⟩))
        "Lobby" "u2" = true ∧
     handshake m9 2 "Lobby" "u2" none = none) :=
  ⟨by decide, handshake_always_registers m9 (by decide) 2 "Lobby" "u2" ⟨some "alice", none⟩⟩

/-- C8: `disconnect` is idempotent — when a first call succeeds and the
socket was registered at most once in the room, a second call with the
same arguments returns exactly the state the first call produced — and
when the removed socket was the room's last connection, the room's
entries are garbage-collected from both registry tables. -/
theorem disconnect_idempotent_and_gc (m m1 : Manager) (ws : Nat) (gid uid : String)
    (hcount : ((getA m.active_connections gid).getD []).count ws ≤ 1)
    (h1 : m.disconnect ws gid uid = some m1) :
    m1.disconnect ws gid uid = some m1 ∧
    ((getA m.active_connections gid).isSome = true →
      ((getA m.active_connections gid).getD []).erase ws = [] →
      getA m1.active_connections gid = none ∧ getA m1.presence gid = none) := by
  rcases hac : getA m.active_connections gid with _ | conns
  · simp only [Manager.disconnect, hac] at h1
    injection h1 with h1
    subst h1
    constructor
    · simp only [Manager.disconnect, hac]
    · intro hs _
      simp at hs
  · rcases hpr : getA m.presence gid with _ | pres
    · simp only [Manager.disconnect, hac, hpr] at h1
      exact Option.noConfusion h1
    · have hnm : ws ∉ conns.erase ws := by
        have hc : conns.count ws ≤ 1 := by
          rw [hac] at hcount
          simpa using hcount
        have hce := List.count_erase_self ws conns
        have h0 : (conns.erase ws).count ws = 0 := by omega
        exact List.count_eq_zero.mp h0
      rcases hec : conns.erase ws with _ | ⟨c0, crest⟩
      · simp only [Manager.disconnect, hac, hpr, hec, List.isEmpty_nil, if_true] at h1
        rw [delA_setA, delA_setA] at h1
        injection h1 with h1
        subst h1
        refine ⟨?_, fun _ _ => ⟨getA_delA_self _ _, getA_delA_self _ _⟩⟩
        simp only [Manager.disconnect, getA_delA_self]
      · rw [hec] at hnm
        simp only [Manager.disconnect, hac, hpr, hec, List.isEmpty_cons,
          Bool.false_eq_true, if_false] at h1
        injection h1 with h1
        subst h1
        constructor
        · simp only [Manager.disconnect, getA_setA_self, List.erase_of_not_mem hnm,
            List.isEmpty_cons, Bool.false_eq_true, if_false, setA_setA, delA_delA]
        · intro _ hsE
          simp only [Option.getD_some] at hsE
          rw [hec] at hsE
          simp at hsE

/-- Witness for C8: disconnecting the only socket of a one-room registry
garbage-collects the room, and a repeated disconnect is a no-op. -/
theorem disconnect_idempotent_and_gc_witness :
    ((getA mW.active_connections "r").getD []).count 5 ≤ 1 ∧
    mW.disconnect 5 "r" "u" = some mW1 ∧
    (mW1.disconnect 5 "r" "u" = some mW1 ∧
      ((getA mW.active_connections "r").isSome = true →
        ((getA mW.active_connections "r").getD []).erase 5 = [] →
        getA mW1.active_connections "r" = none ∧ getA mW1.presence "r" = none)) :=
  ⟨by decide, by decide,
    disconnect_idempotent_and_gc mW mW1 5 "r" "u" (by decide) (by decide)⟩

/-- C9: the registry consistency invariant — equal room key sets in the
two tables and a non-empty connection list per room — is preserved by the
endpoint's registration, by `connect` and by `disconnect`, and under it
each of the three operations completes without touching a presence entry
for a missing room. -/
theorem registry_invariant_preserved (m : Manager) (h : invB m = true) (ws : Nat)
    (gid uid : String) (info : UserInfo) :
    invSome (register m ws gid uid info) = true ∧
    invSome (m.connect ws gid info) = true ∧
    invSome (m.disconnect ws gid uid) = true := by
  refine ⟨invSome_register m h ws gid uid info, ?_, invSome_disconnect m h ws gid uid⟩
  have hce : m.connect ws gid info = register m ws gid info.id info := rfl
  rw [hce]
  exact invSome_register m h ws gid info.id info

/-- Witness for C9 at a concrete one-room registry. -/
theorem registry_invariant_preserved_witness :
    invB m9 = true ∧
    (invSome (register m9 2 "Lobby" "u2" infoB) = true ∧
     invSome (m9.connect 2 "Lobby" infoB) = true ∧
     invSome (m9.disconnect 2 "Lobby" "u2") = true) :=
  ⟨by decide, registry_invariant_preserved m9 (by decide) 2 "Lobby" "u2" infoB⟩

theorem vcAnnotate_sender_id (ctx : Ctx) (f : Frame) :
    (vcAnnotate ctx f).sender_id = some ctx.user_id := by
  simp only [vcAnnotate]
  split_ifs <;> rfl

/-- C6: outbound identity fields are determined solely by the connection's
authenticated identity: two frames that differ only in client-supplied
identity fields produce effect traces with identical identity fields, and
every identity field carried equals the connection's own identity. -/
theorem identity_fields_from_connection (ctx : Ctx) (f1 f2 : Frame)
    (h : stripIdentity f1 = stripIdentity f2) :
    (handleFrame ctx f1).map effectIdentity
      = (handleFrame ctx f2).map effectIdentity ∧
    identitiesOk ctx (handleFrame ctx f1) = true := by
  rcases f1 with ⟨t1, a1, b1, c1, d1, e1, g1, v1, s1, n1, p1⟩
  rcases f2 with ⟨t2, a2, b2, c2, d2, e2, g2, v2, s2, n2, p2⟩
  simp only [stripIdentity, Frame.mk.injEq, and_true] at h
  obtain ⟨ht, ha, hb, hc, hd, he, hg, hv⟩ := h
  subst ht
  subst ha
  subst hb
  subst hc
  subst hd
  subst he
  subst hg
  subst hv
  constructor
  · simp only [handleFrame]
    split_ifs <;>
      simp [effectIdentity, vcAnnotate_sender_id, buildMsgOut]
  · simp only [handleFrame]
    split_ifs <;>
      simp [identitiesOk, effectIdentity, vcAnnotate_sender_id, buildMsgOut]

/-- Witness for C6: two voice frames spoofing different sender identities
yield traces whose identity fields agree and carry the connection's id. -/
theorem identity_fields_from_connection_witness :
    stripIdentity vcFrameSpoofA = stripIdentity vcFrameSpoofB ∧
    ((handleFrame ctx0 vcFrameSpoofA).map effectIdentity
        = (handleFrame ctx0 vcFrameSpoofB).map effectIdentity ∧
     identitiesOk ctx0 (handleFrame ctx0 vcFrameSpoofA) = true) :=
  ⟨rfl, identity_fields_from_connection ctx0 vcFrameSpoofA vcFrameSpoofB rfl⟩
